import Mathlib

/-!
Verification of the SPI bus arbiter (`SPIArbiter.cpp`) and the buffered
asynchronous LCD SPI driver (`d4dlcdhw_spi_spark_8b.cpp`) of the firmware
repository.  The C++ code is shallowly embedded: the module-level mutable
state becomes explicit state records, every hardware interaction (SPI
peripheral reconfiguration, GPIO writes, DMA transfers) is recorded as an
event in an output trace, and each C++ function becomes a pure Lean
function from state to state paired with the emitted event list.
-/

/-! ## Part 1: the SPI bus arbiter (`SPIArbiter.cpp`) -/

/-- A client's desired bus configuration: the four fields of the C++
`SPIConfiguration` class (`mode_`, `bitOrder_`, `clockDivider_`, `ss_pin_`,
read through the trivial getters `getMode`, `getBitOrder`,
`getClockDivider`, `getSSPin`). -/
structure SPIConfiguration where
  mode : Nat
  bitOrder : Nat
  clockDivider : Nat
  ss_pin : Nat
  deriving DecidableEq

/-- The arbiter's stored state: the currently-applied electrical fields and
the recorded select pin (`255` is the "no selection" sentinel used by the
code in `if(ss_pin_ != 255)`). -/
structure SPIArbiter where
  mode_ : Nat
  bitOrder_ : Nat
  clockDivider_ : Nat
  ss_pin_ : Nat
  deriving DecidableEq

/-- One hardware call made by `SPIArbiter::apply`: either one of the three
electrical reconfiguration calls on the SPI peripheral, or a GPIO write
(`digitalWrite(pin, level)`, where `level = true` is HIGH = deasserted and
`level = false` is LOW = asserted). -/
inductive SPICall where
  | setDataMode (m : Nat)
  | setBitOrder (o : Nat)
  | setClockDivider (d : Nat)
  | digitalWrite (pin : Nat) (level : Bool)
  deriving DecidableEq

/-- Shallow embedding of `SPIArbiter::apply` (SPIArbiter.cpp lines 23-42):
each differing electrical field is written to the hardware and stored; then
the stored select pin, when not the sentinel 255, is driven HIGH
("unselect previous client"), and the client's select pin is driven LOW
("select new client").  Note that the source never assigns `ss_pin_`. -/
def SPIArbiter.apply (s : SPIArbiter) (client : SPIConfiguration) :
    SPIArbiter × List SPICall :=
  let r1 := if s.mode_ ≠ client.mode then
      ({ s with mode_ := client.mode }, [SPICall.setDataMode client.mode])
    else (s, [])
  let r2 := if r1.1.bitOrder_ ≠ client.bitOrder then
      ({ r1.1 with bitOrder_ := client.bitOrder }, [SPICall.setBitOrder client.bitOrder])
    else (r1.1, [])
  let r3 := if r2.1.clockDivider_ ≠ client.clockDivider then
      ({ r2.1 with clockDivider_ := client.clockDivider },
        [SPICall.setClockDivider client.clockDivider])
    else (r2.1, [])
  let c4 := if r3.1.ss_pin_ ≠ 255 then [SPICall.digitalWrite r3.1.ss_pin_ true] else []
  let c5 := [SPICall.digitalWrite client.ss_pin false]
  (r3.1, r1.2 ++ r2.2 ++ r3.2 ++ c4 ++ c5)

/-- Replay one GPIO call onto the pin map: a select line is asserted when
it was last driven LOW. -/
def pinStep (asserted : Nat → Bool) : SPICall → (Nat → Bool)
  | SPICall.digitalWrite p lvl => fun q => if q = p then !lvl else asserted q
  | _ => asserted

/-- Replay a call list onto the pin map, giving each pin's final asserted
(driven-LOW) status. -/
def assertedAfter (asserted : Nat → Bool) (calls : List SPICall) : Nat → Bool :=
  calls.foldl pinStep asserted

/-- The three electrical reconfiguration calls of a call list, with the GPIO
writes dropped. -/
def elecCalls (calls : List SPICall) : List SPICall :=
  calls.filter fun c => match c with
    | SPICall.digitalWrite _ _ => false
    | _ => true

/-- Client X of the spec scenario: mode 0, MSB-first (encoded 0),
divider 32, select pin 7. -/
def clientX : SPIConfiguration := ⟨0, 0, 32, 7⟩

/-- Client Y of the spec scenario: mode 3, LSB-first (encoded 1),
divider 64, select pin 9. -/
def clientY : SPIConfiguration := ⟨3, 1, 64, 9⟩

/-- The arbiter's initial state: no select pin recorded (the 255 sentinel),
electrical fields at their zero defaults. -/
def arbiterInit : SPIArbiter := ⟨0, 0, 0, 255⟩

/-- The state `apply` leaves behind: all three electrical fields now equal
the client's, and the stored select pin is untouched (the source contains
no assignment to `ss_pin_`). -/
theorem SPIArbiter.apply_fst (s : SPIArbiter) (c : SPIConfiguration) :
    (SPIArbiter.apply s c).1 =
      { mode_ := c.mode, bitOrder_ := c.bitOrder, clockDivider_ := c.clockDivider,
        ss_pin_ := s.ss_pin_ } := by
  obtain ⟨m, b, d, p⟩ := s
  unfold SPIArbiter.apply
  by_cases h1 : m = c.mode <;> by_cases h2 : b = c.bitOrder <;>
    by_cases h3 : d = c.clockDivider <;>
    simp_all

/-- C1: after `apply` returns, the arbiter's stored state is claimed to
match all four fields of the requested configuration.  The code violates
this: `apply` never assigns `ss_pin_`, so from the initial state the
recorded select pin is still the 255 sentinel while the client asked for
pin 9 (and the applied electrical fields do match, confirming that the
select-pin bookkeeping is the only part that is broken). -/
theorem apply_does_not_record_select_pin :
    (SPIArbiter.apply arbiterInit clientY).1.ss_pin_ = 255 ∧
    clientY.ss_pin = 9 ∧
    (SPIArbiter.apply arbiterInit clientY).1.mode_ = clientY.mode ∧
    (SPIArbiter.apply arbiterInit clientY).1.bitOrder_ = clientY.bitOrder ∧
    (SPIArbiter.apply arbiterInit clientY).1.clockDivider_ = clientY.clockDivider := by
  decide

/-- C2: mutual exclusion of select lines is claimed for every interleaving
of `apply` calls.  The code violates it already on the second call: after
`apply(clientX)` then `apply(clientY)` from the initial state, pins 7 and 9
are both still driven LOW, because the stored pin used by the
"unselect previous client" write still holds the 255 sentinel. -/
theorem two_select_lines_asserted :
    assertedAfter (fun _ => false)
        ((SPIArbiter.apply arbiterInit clientX).2 ++
          (SPIArbiter.apply (SPIArbiter.apply arbiterInit clientX).1 clientY).2) 7 = true ∧
    assertedAfter (fun _ => false)
        ((SPIArbiter.apply arbiterInit clientX).2 ++
          (SPIArbiter.apply (SPIArbiter.apply arbiterInit clientX).1 clientY).2) 9 = true := by
  decide

/-- C3: in the X-then-Y scenario the second `apply` is claimed to emit
"deassert pin 7, set mode, set bit order, set clock divider, assert pin 9".
The code instead emits only the three electrical updates followed by the
pin 9 assert: pin 7 is never deasserted (the stored pin still holds the
sentinel), and even the intended deassert would come after the electrical
updates, not before them. -/
theorem second_apply_call_sequence :
    (SPIArbiter.apply (SPIArbiter.apply arbiterInit clientX).1 clientY).2 =
      [SPICall.setDataMode 3, SPICall.setBitOrder 1, SPICall.setClockDivider 64,
        SPICall.digitalWrite 9 false] := by
  decide

/-- C4 counterexample: calling `apply` twice in a row with the same
configuration is claimed to perform zero hardware writes the second time;
in fact the second call still performs the unconditional
`digitalWrite(client.getSSPin(), LOW)`. -/
theorem second_apply_not_silent :
    (SPIArbiter.apply (SPIArbiter.apply arbiterInit clientY).1 clientY).2 =
      [SPICall.digitalWrite 9 false] := by
  decide

/-- C4 amended: only the three electrical operations are delta-guarded.  A
second `apply` with the same configuration performs zero electrical
writes, and in general each electrical call is emitted exactly when the
corresponding stored field differs; the GPIO writes are unconditional: every
call asserts the client's pin, and deasserts the stored pin whenever that
pin is not the 255 sentinel. -/
theorem apply_electrical_idempotent (s : SPIArbiter) (c : SPIConfiguration) :
    elecCalls (SPIArbiter.apply (SPIArbiter.apply s c).1 c).2 = [] ∧
    (SPIArbiter.apply (SPIArbiter.apply s c).1 c).2 =
      (if (SPIArbiter.apply s c).1.ss_pin_ ≠ 255 then
          [SPICall.digitalWrite (SPIArbiter.apply s c).1.ss_pin_ true] else []) ++
        [SPICall.digitalWrite c.ss_pin false] ∧
    elecCalls (SPIArbiter.apply s c).2 =
      (if s.mode_ ≠ c.mode then [SPICall.setDataMode c.mode] else []) ++
        (if s.bitOrder_ ≠ c.bitOrder then [SPICall.setBitOrder c.bitOrder] else []) ++
        (if s.clockDivider_ ≠ c.clockDivider then [SPICall.setClockDivider c.clockDivider]
          else []) := by
  refine ⟨?_, ?_, ?_⟩
  · rw [SPIArbiter.apply_fst]
    unfold SPIArbiter.apply elecCalls
    by_cases h : s.ss_pin_ ≠ 255 <;> simp [h]
  · rw [SPIArbiter.apply_fst]
    unfold SPIArbiter.apply
    by_cases h : s.ss_pin_ ≠ 255 <;> simp [h]
  · unfold SPIArbiter.apply elecCalls
    by_cases h1 : s.mode_ = c.mode <;> by_cases h2 : s.bitOrder_ = c.bitOrder <;>
      by_cases h3 : s.clockDivider_ = c.clockDivider <;>
      by_cases h4 : s.ss_pin_ = 255 <;>
      simp [h1, h2, h3, h4]

/-! ## Part 2: the buffered asynchronous LCD driver (`d4dlcdhw_spi_spark_8b.cpp`)

The driver's module-level statics (`tx_buffer`, `active_buffer_idx`,
`active_buffer_offset`, `dma_buffer_idx`) together with the chip-select and
data/command GPIO levels form the state.  Every hardware interaction is
recorded in a trace of events.  `waitForTransferToComplete` busy-polls the
HAL transfer status until the transfer is no longer ongoing; at that point
the DMA completion callback `transferComplete` has run, so the model makes
the wait perform that callback's transition when a transfer was in flight
and then record that idle was observed. -/

/-- The C++ macro `SCREEN_DATA_BUFFER_SIZE`: each of the two buffers holds
320 bytes. -/
def SCREEN_DATA_BUFFER_SIZE : Nat := 320

/-- State of the driver: the two 320-byte buffers (`tx_buffer i j` is byte
`j` of buffer `i`), the active buffer index, the fill offset, the DMA buffer
index (an `Int`, `-1` meaning no buffer is being read by DMA, as in the
source), and the levels of the chip-select and data/command lines
(`true` = asserted). -/
structure DriverState where
  tx_buffer : Nat → Nat → Nat
  active_buffer_idx : Nat
  active_buffer_offset : Nat
  dma_buffer_idx : Int
  cs_asserted : Bool
  dc_asserted : Bool

/-- One hardware-visible event of the driver:
`store i off v` is the write `tx_buffer[i][off] = v`;
`complete` is the DMA completion callback `transferComplete` running
(it deasserts chip select and clears `dma_buffer_idx`);
`waitIdle` is `waitForTransferToComplete` returning, i.e. the transfer
status being observed idle;
`csAssert`/`csDeassert` and `dcAssert`/`dcDeassert` are the chip-select and
data/command GPIO writes;
`begin i len data` is the asynchronous `SPI.transfer` of `len` bytes out of
buffer `i`, whose content at hand-off is `data`;
`sync w` is the synchronous single-word `SPI.transfer(w)`. -/
inductive Ev where
  | store (i off v : Nat)
  | complete
  | waitIdle
  | csAssert
  | csDeassert
  | dcAssert
  | dcDeassert
  | begin (i len : Nat) (data : List Nat)
  | sync (w : Nat)
  deriving DecidableEq

/-- `hasPendingDataToSend` of the source: the active buffer's fill offset
(nonzero means there is data to flush). -/
def hasPendingDataToSend (s : DriverState) : Nat :=
  s.active_buffer_offset

/-- The DMA completion callback `transferComplete`: deassert chip select and
mark that no buffer is being read by DMA. -/
def transferComplete (s : DriverState) : DriverState :=
  { s with cs_asserted := false, dma_buffer_idx := -1 }

/-- `waitForTransferToComplete`: busy-poll until the transfer status is no
longer ongoing.  When a transfer was in flight, its completion callback runs
during the wait; in every case the caller observes idle on return. -/
def waitForTransferToComplete (s : DriverState) : DriverState × List Ev :=
  if s.dma_buffer_idx = -1 then (s, [Ev.waitIdle])
  else (transferComplete s, [Ev.complete, Ev.waitIdle])

/-- `scheduleTransfer`: wait for any previous transfer, assert chip select,
record the buffer as owned by DMA, and start the asynchronous transfer of
`len` bytes of buffer `tx_buffer_idx` (the `begin` event captures the bytes
handed over). -/
def scheduleTransfer (s : DriverState) (tx_buffer_idx len : Nat) :
    DriverState × List Ev :=
  let r1 := waitForTransferToComplete s
  let s2 := { r1.1 with cs_asserted := true, dma_buffer_idx := Int.ofNat tx_buffer_idx }
  (s2, r1.2 ++ [Ev.csAssert,
    Ev.begin tx_buffer_idx len ((List.range len).map (s2.tx_buffer tx_buffer_idx))])

/-- `flushData`: when the active buffer holds pending bytes, schedule its
transfer, toggle the active index with `(active_buffer_idx + 1) & 0x1`,
wait again in the (unreachable) case that the new active buffer is still the
DMA buffer, and reset the fill offset. -/
def flushData (s : DriverState) : DriverState × List Ev :=
  if hasPendingDataToSend s ≠ 0 then
    let r1 := scheduleTransfer s s.active_buffer_idx s.active_buffer_offset
    let new_active_idx := (s.active_buffer_idx + 1) &&& 1
    let r2 := if Int.ofNat new_active_idx = r1.1.dma_buffer_idx
      then waitForTransferToComplete r1.1
      else (r1.1, [])
    ({ r2.1 with active_buffer_offset := 0, active_buffer_idx := new_active_idx },
      r1.2 ++ r2.2)
  else (s, [])

/-- `D4DLCDHW_SendDataWord_Spi_Spark_8b`: store the low byte of the 16-bit
word (the `uint8_t` assignment truncates to `value % 256`) at the active
buffer's fill offset, increment the offset, and flush when the buffer has
become full. -/
def D4DLCDHW_SendDataWord_Spi_Spark_8b (s : DriverState) (value : Nat) :
    DriverState × List Ev :=
  let b := value % 256
  let s1 := { s with
    tx_buffer := fun i j =>
      if i = s.active_buffer_idx ∧ j = s.active_buffer_offset then b else s.tx_buffer i j,
    active_buffer_offset := s.active_buffer_offset + 1 }
  let e1 := [Ev.store s.active_buffer_idx s.active_buffer_offset b]
  if SCREEN_DATA_BUFFER_SIZE ≤ s1.active_buffer_offset then
    let r2 := flushData s1
    (r2.1, e1 ++ r2.2)
  else (s1, e1)

/-- `D4DLCDHW_SendCmdWord_Spi_Spark_8b`: flush pending data, wait until the
transfer status is idle, assert the data/command line (command mode), assert
chip select, transfer the word synchronously (the `uint8_t` argument of
`SPI.transfer` truncates it to `cmd % 256`), then deassert chip select and
return the data/command line to data mode. -/
def D4DLCDHW_SendCmdWord_Spi_Spark_8b (s : DriverState) (cmd : Nat) :
    DriverState × List Ev :=
  let r1 := flushData s
  let r2 := waitForTransferToComplete r1.1
  let s3 := { r2.1 with dc_asserted := true, cs_asserted := true }
  let s4 := { s3 with cs_asserted := false, dc_asserted := false }
  (s4, r1.2 ++ r2.2 ++
    [Ev.dcAssert, Ev.csAssert, Ev.sync (cmd % 256), Ev.csDeassert, Ev.dcDeassert])

/-- The `D4DLCD_FLUSH_MODE` enumeration of the eGUI low-level driver API
referenced by the source (its header is not part of the repository under
verification; only the two constants named by the code matter). -/
inductive D4DLCD_FLUSH_MODE where
  | D4DLCD_FLSH_ELEMENT
  | D4DLCD_FLSH_SCR_START
  | D4DLCD_FLSH_SCR_END
  | D4DLCD_FLSH_FORCE
  deriving DecidableEq, BEq

/-- `D4DLCD_FlushBuffer_Spi_Spark_8b`: the source guards the flush with
`if (true || mode==D4DLCD_FLSH_SCR_END || mode==D4DLCD_FLSH_FORCE)`, whose
short-circuited `true ||` makes the flush unconditional. -/
def D4DLCD_FlushBuffer_Spi_Spark_8b (s : DriverState) (mode : D4DLCD_FLUSH_MODE) :
    DriverState × List Ev :=
  if true || mode == D4DLCD_FLUSH_MODE.D4DLCD_FLSH_SCR_END
      || mode == D4DLCD_FLUSH_MODE.D4DLCD_FLSH_FORCE then
    flushData s
  else (s, [])

/-- A foreground or background step of the driver: the three API entry
points the claims are about, plus `isr`, the asynchronous DMA completion
interrupt, which may fire between any two API calls while a transfer is in
flight. -/
inductive DrvOp where
  | data (w : Nat)
  | cmd (w : Nat)
  | flush (m : D4DLCD_FLUSH_MODE)
  | isr

/-- One step of the driver from state `s`. -/
def drvStep (s : DriverState) : DrvOp → DriverState × List Ev
  | DrvOp.data w => D4DLCDHW_SendDataWord_Spi_Spark_8b s w
  | DrvOp.cmd w => D4DLCDHW_SendCmdWord_Spi_Spark_8b s w
  | DrvOp.flush m => D4DLCD_FlushBuffer_Spi_Spark_8b s m
  | DrvOp.isr =>
      if s.dma_buffer_idx = -1 then (s, [])
      else (transferComplete s, [Ev.complete])

/-- Run a sequence of steps, concatenating the emitted traces. -/
def drvRun (s : DriverState) : List DrvOp → DriverState × List Ev
  | [] => (s, [])
  | op :: rest =>
      let r1 := drvStep s op
      let r2 := drvRun r1.1 rest
      (r2.1, r1.2 ++ r2.2)

/-- The driver's initial state: zeroed static buffers, buffer 0 active and
empty, no DMA transfer, both control lines deasserted. -/
def drvInit : DriverState :=
  { tx_buffer := fun _ _ => 0, active_buffer_idx := 0, active_buffer_offset := 0,
    dma_buffer_idx := -1, cs_asserted := false, dc_asserted := false }

/-! ## Trace observers

Small executable functions that read properties off an event trace; the
claims about the driver are stated in terms of these. -/

/-- Replay of the in-flight flag along a trace: a `begin` starts a transfer,
a `complete` ends it, nothing else changes it. -/
def evFlag (b : Bool) (e : Ev) : Bool :=
  match e with
  | Ev.begin _ _ _ => true
  | Ev.complete => false
  | _ => b

/-- The in-flight flag after replaying a whole trace. -/
def flagAfter (b : Bool) (es : List Ev) : Bool :=
  es.foldl evFlag b

/-- Checks that no `begin` event occurs while the replayed in-flight flag is
set: a new asynchronous transfer is never started while a previous one has
not completed. -/
def chkBegins (b : Bool) : List Ev → Bool
  | [] => true
  | e :: rest =>
      (match e with
        | Ev.begin _ _ _ => !b
        | _ => true) && chkBegins (evFlag b e) rest

/-- Sliding window of the last two events seen. -/
def winStep (p : Option Ev × Option Ev) (e : Ev) : Option Ev × Option Ev :=
  (p.2, some e)

/-- The last-two-events window after a trace. -/
def win (p : Option Ev × Option Ev) (es : List Ev) : Option Ev × Option Ev :=
  es.foldl winStep p

/-- Checks that every `begin` event is immediately preceded by observing the
transfer status idle and then asserting chip select (`waitIdle, csAssert`),
i.e. the scheduler waited for idle immediately before starting a transfer. -/
def chkPre (p : Option Ev × Option Ev) : List Ev → Bool
  | [] => true
  | e :: rest =>
      (match e with
        | Ev.begin _ _ _ =>
            decide (p.1 = some Ev.waitIdle) && decide (p.2 = some Ev.csAssert)
        | _ => true) && chkPre (winStep p e) rest

/-- The byte lists handed to the asynchronous transfers of a trace, in
order. -/
def beginDatas (es : List Ev) : List (List Nat) :=
  es.filterMap fun e => match e with
    | Ev.begin _ _ d => some d
    | _ => none

/-- All bytes handed to asynchronous transfers along a trace, in order. -/
def flushedBytes (es : List Ev) : List Nat :=
  (beginDatas es).flatten

/-- The bytes currently pending in the active buffer: the first
`active_buffer_offset` bytes of the active buffer. -/
def pendingBytes (s : DriverState) : List Nat :=
  (List.range s.active_buffer_offset).map (s.tx_buffer s.active_buffer_idx)

/-- The buffer-store events of a trace. -/
def storeEvents (es : List Ev) : List Ev :=
  es.filter fun e => match e with
    | Ev.store _ _ _ => true
    | _ => false

/-- Checks that every buffer store of a trace hits one of the two buffers at
an offset strictly below the 320-byte capacity. -/
def storesOk (es : List Ev) : Bool :=
  es.all fun e => match e with
    | Ev.store i off _ => decide (i < 2) && decide (off < SCREEN_DATA_BUFFER_SIZE)
    | _ => true

/-- Checks that every transfer hand-off passes a length equal to the number
of bytes handed over. -/
def beginLensOk (es : List Ev) : Bool :=
  es.all fun e => match e with
    | Ev.begin _ len d => decide (d.length = len)
    | _ => true

/-- The words passed to the buffered data-word writes of an operation
sequence, in order. -/
def dataWords (ops : List DrvOp) : List Nat :=
  ops.filterMap fun op => match op with
    | DrvOp.data w => some w
    | _ => none

/-- Whether a transfer is in flight in a driver state. -/
def busy (s : DriverState) : Bool :=
  decide (s.dma_buffer_idx ≠ -1)

/-! ## Helper lemmas about the observers and the step functions -/

theorem flagAfter_append (b : Bool) (xs ys : List Ev) :
    flagAfter b (xs ++ ys) = flagAfter (flagAfter b xs) ys :=
  List.foldl_append _ _ _ _

theorem chkBegins_append (xs ys : List Ev) : ∀ b : Bool,
    chkBegins b (xs ++ ys) = (chkBegins b xs && chkBegins (flagAfter b xs) ys) := by
  induction xs with
  | nil => intro b; simp [chkBegins, flagAfter]
  | cons e rest ih =>
      intro b
      simp [chkBegins, ih, flagAfter, Bool.and_assoc]

theorem win_append (p : Option Ev × Option Ev) (xs ys : List Ev) :
    win p (xs ++ ys) = win (win p xs) ys :=
  List.foldl_append _ _ _ _

theorem chkPre_append (xs ys : List Ev) : ∀ p : Option Ev × Option Ev,
    chkPre p (xs ++ ys) = (chkPre p xs && chkPre (win p xs) ys) := by
  induction xs with
  | nil => intro p; simp [chkPre, win]
  | cons e rest ih =>
      intro p
      simp [chkPre, ih, win, Bool.and_assoc]

theorem beginDatas_append (xs ys : List Ev) :
    beginDatas (xs ++ ys) = beginDatas xs ++ beginDatas ys :=
  List.filterMap_append _ _ _

theorem flushedBytes_append (xs ys : List Ev) :
    flushedBytes (xs ++ ys) = flushedBytes xs ++ flushedBytes ys := by
  simp [flushedBytes, beginDatas_append]

theorem storeEvents_append (xs ys : List Ev) :
    storeEvents (xs ++ ys) = storeEvents xs ++ storeEvents ys :=
  List.filter_append _ _

theorem storesOk_append (xs ys : List Ev) :
    storesOk (xs ++ ys) = (storesOk xs && storesOk ys) :=
  List.all_append

theorem beginLensOk_append (xs ys : List Ev) :
    beginLensOk (xs ++ ys) = (beginLensOk xs && beginLensOk ys) :=
  List.all_append

theorem and_one_succ_ne (a : Nat) : (a + 1) &&& 1 ≠ a := by
  rw [Nat.and_one_is_mod]
  omega

theorem and_one_lt_two (a : Nat) : a &&& 1 < 2 := by
  rw [Nat.and_one_is_mod]
  omega

theorem flushData_of_zero (s : DriverState) (h : s.active_buffer_offset = 0) :
    flushData s = (s, []) := by
  simp [flushData, hasPendingDataToSend, h]

theorem flushData_of_pos (s : DriverState) (h : s.active_buffer_offset ≠ 0) :
    flushData s =
      ({ tx_buffer := s.tx_buffer,
         active_buffer_idx := (s.active_buffer_idx + 1) &&& 1,
         active_buffer_offset := 0,
         dma_buffer_idx := Int.ofNat s.active_buffer_idx,
         cs_asserted := true,
         dc_asserted := s.dc_asserted },
       (if s.dma_buffer_idx = -1 then [Ev.waitIdle] else [Ev.complete, Ev.waitIdle]) ++
         [Ev.csAssert,
          Ev.begin s.active_buffer_idx s.active_buffer_offset (pendingBytes s)]) := by
  have hne : ¬ (((s.active_buffer_idx : Int) + 1) % 2 = (s.active_buffer_idx : Int)) := by
    omega
  by_cases hd : s.dma_buffer_idx = -1 <;>
    simp [flushData, hasPendingDataToSend, h, scheduleTransfer, waitForTransferToComplete,
      transferComplete, hd, hne, pendingBytes]

theorem pendingBytes_store (s : DriverState) (b : Nat) :
    pendingBytes
      { s with
        tx_buffer := fun i j =>
          if i = s.active_buffer_idx ∧ j = s.active_buffer_offset then b
          else s.tx_buffer i j,
        active_buffer_offset := s.active_buffer_offset + 1 } =
      pendingBytes s ++ [b] := by
  unfold pendingBytes
  simp only [List.range_succ, List.map_append, List.map_cons, List.map_nil]
  have h1 :
      (List.range s.active_buffer_offset).map
          (fun j =>
            if s.active_buffer_idx = s.active_buffer_idx ∧ j = s.active_buffer_offset then b
            else s.tx_buffer s.active_buffer_idx j) =
        (List.range s.active_buffer_offset).map (s.tx_buffer s.active_buffer_idx) := by
    apply List.map_congr_left
    intro j hj
    have hlt : j < s.active_buffer_offset := List.mem_range.mp hj
    simp [Nat.ne_of_lt hlt]
  simp [h1]
  intro a ha hb
  exact absurd hb (Nat.ne_of_lt ha)

theorem sendData_of_not_full (s : DriverState) (value : Nat)
    (h : s.active_buffer_offset + 1 < SCREEN_DATA_BUFFER_SIZE) :
    D4DLCDHW_SendDataWord_Spi_Spark_8b s value =
      ({ s with
          tx_buffer := fun i j =>
            if i = s.active_buffer_idx ∧ j = s.active_buffer_offset then value % 256
            else s.tx_buffer i j,
          active_buffer_offset := s.active_buffer_offset + 1 },
        [Ev.store s.active_buffer_idx s.active_buffer_offset (value % 256)]) := by
  simp [D4DLCDHW_SendDataWord_Spi_Spark_8b, Nat.not_le.mpr h]

theorem sendData_of_full (s : DriverState) (value : Nat)
    (h : SCREEN_DATA_BUFFER_SIZE ≤ s.active_buffer_offset + 1) :
    D4DLCDHW_SendDataWord_Spi_Spark_8b s value =
      ((flushData
          { s with
            tx_buffer := fun i j =>
              if i = s.active_buffer_idx ∧ j = s.active_buffer_offset then value % 256
              else s.tx_buffer i j,
            active_buffer_offset := s.active_buffer_offset + 1 }).1,
        Ev.store s.active_buffer_idx s.active_buffer_offset (value % 256) ::
          (flushData
            { s with
              tx_buffer := fun i j =>
                if i = s.active_buffer_idx ∧ j = s.active_buffer_offset then value % 256
                else s.tx_buffer i j,
              active_buffer_offset := s.active_buffer_offset + 1 }).2) := by
  simp [D4DLCDHW_SendDataWord_Spi_Spark_8b, h]

theorem sendCmd_of_zero (s : DriverState) (cmd : Nat)
    (h : s.active_buffer_offset = 0) :
    D4DLCDHW_SendCmdWord_Spi_Spark_8b s cmd =
      ({ s with dma_buffer_idx := -1, cs_asserted := false, dc_asserted := false },
        (if s.dma_buffer_idx = -1 then [Ev.waitIdle] else [Ev.complete, Ev.waitIdle]) ++
          [Ev.dcAssert, Ev.csAssert, Ev.sync (cmd % 256), Ev.csDeassert, Ev.dcDeassert]) := by
  by_cases hd : s.dma_buffer_idx = -1 <;>
    simp [D4DLCDHW_SendCmdWord_Spi_Spark_8b, flushData_of_zero s h,
      waitForTransferToComplete, transferComplete, hd]

theorem sendCmd_of_pos (s : DriverState) (cmd : Nat)
    (h : s.active_buffer_offset ≠ 0) :
    D4DLCDHW_SendCmdWord_Spi_Spark_8b s cmd =
      ({ tx_buffer := s.tx_buffer,
         active_buffer_idx := (s.active_buffer_idx + 1) &&& 1,
         active_buffer_offset := 0,
         dma_buffer_idx := -1,
         cs_asserted := false,
         dc_asserted := false },
        ((if s.dma_buffer_idx = -1 then [Ev.waitIdle] else [Ev.complete, Ev.waitIdle]) ++
            [Ev.csAssert,
              Ev.begin s.active_buffer_idx s.active_buffer_offset (pendingBytes s)]) ++
          ([Ev.complete, Ev.waitIdle] ++
            [Ev.dcAssert, Ev.csAssert, Ev.sync (cmd % 256), Ev.csDeassert, Ev.dcDeassert])) := by
  simp [D4DLCDHW_SendCmdWord_Spi_Spark_8b, flushData_of_pos s h,
    waitForTransferToComplete, transferComplete]

/-- The bytes a single operation appends to the transfer pipeline. -/
def opBytes : DrvOp → List Nat
  | DrvOp.data w => [w % 256]
  | _ => []

theorem step_fifo (s : DriverState) (op : DrvOp) :
    flushedBytes (drvStep s op).2 ++ pendingBytes (drvStep s op).1 =
      pendingBytes s ++ opBytes op := by
  cases op with
  | data w =>
      show flushedBytes (D4DLCDHW_SendDataWord_Spi_Spark_8b s w).2 ++
          pendingBytes (D4DLCDHW_SendDataWord_Spi_Spark_8b s w).1 =
          pendingBytes s ++ [w % 256]
      by_cases hfull : SCREEN_DATA_BUFFER_SIZE ≤ s.active_buffer_offset + 1
      · rw [sendData_of_full s w hfull]
        rw [← pendingBytes_store s (w % 256)]
        rw [flushData_of_pos _ (Nat.succ_ne_zero s.active_buffer_offset)]
        by_cases hd : s.dma_buffer_idx = -1 <;>
          simp [flushedBytes, beginDatas, pendingBytes, hd]
      · rw [sendData_of_not_full s w (Nat.not_le.mp hfull)]
        rw [← pendingBytes_store s (w % 256)]
        simp [flushedBytes, beginDatas]
  | cmd w =>
      show flushedBytes (D4DLCDHW_SendCmdWord_Spi_Spark_8b s w).2 ++
          pendingBytes (D4DLCDHW_SendCmdWord_Spi_Spark_8b s w).1 =
          pendingBytes s ++ []
      by_cases h0 : s.active_buffer_offset = 0
      · rw [sendCmd_of_zero s w h0]
        by_cases hd : s.dma_buffer_idx = -1 <;>
          simp [flushedBytes, beginDatas, pendingBytes, hd, h0]
      · rw [sendCmd_of_pos s w h0]
        by_cases hd : s.dma_buffer_idx = -1 <;>
          simp [flushedBytes, beginDatas, pendingBytes, hd]
  | flush m =>
      show flushedBytes (D4DLCD_FlushBuffer_Spi_Spark_8b s m).2 ++
          pendingBytes (D4DLCD_FlushBuffer_Spi_Spark_8b s m).1 =
          pendingBytes s ++ []
      rw [show D4DLCD_FlushBuffer_Spi_Spark_8b s m = flushData s by
        simp [D4DLCD_FlushBuffer_Spi_Spark_8b]]
      by_cases h0 : s.active_buffer_offset = 0
      · rw [flushData_of_zero s h0]
        simp [flushedBytes, beginDatas, pendingBytes, h0]
      · rw [flushData_of_pos s h0]
        by_cases hd : s.dma_buffer_idx = -1 <;>
          simp [flushedBytes, beginDatas, pendingBytes, hd]
  | isr =>
      by_cases hd : s.dma_buffer_idx = -1 <;>
        simp [drvStep, transferComplete, hd, flushedBytes, beginDatas, pendingBytes, opBytes]

theorem drvRun_fifo (ops : List DrvOp) : ∀ s : DriverState,
    flushedBytes (drvRun s ops).2 ++ pendingBytes (drvRun s ops).1 =
      pendingBytes s ++ (dataWords ops).map (· % 256) := by
  induction ops with
  | nil => intro s; simp [drvRun, flushedBytes, beginDatas, dataWords]
  | cons op rest ih =>
      intro s
      simp only [drvRun, flushedBytes_append]
      rw [List.append_assoc, ih (drvStep s op).1, ← List.append_assoc, step_fifo s op]
      cases op <;> simp [dataWords, opBytes, List.append_assoc]

theorem step_lens (s : DriverState) (op : DrvOp) :
    beginLensOk (drvStep s op).2 = true := by
  cases op with
  | data w =>
      show beginLensOk (D4DLCDHW_SendDataWord_Spi_Spark_8b s w).2 = true
      by_cases hfull : SCREEN_DATA_BUFFER_SIZE ≤ s.active_buffer_offset + 1
      · rw [sendData_of_full s w hfull]
        rw [flushData_of_pos _ (Nat.succ_ne_zero s.active_buffer_offset)]
        by_cases hd : s.dma_buffer_idx = -1 <;>
          simp [beginLensOk, pendingBytes, hd]
      · rw [sendData_of_not_full s w (Nat.not_le.mp hfull)]
        simp [beginLensOk]
  | cmd w =>
      show beginLensOk (D4DLCDHW_SendCmdWord_Spi_Spark_8b s w).2 = true
      by_cases h0 : s.active_buffer_offset = 0
      · rw [sendCmd_of_zero s w h0]
        by_cases hd : s.dma_buffer_idx = -1 <;> simp [beginLensOk, hd]
      · rw [sendCmd_of_pos s w h0]
        by_cases hd : s.dma_buffer_idx = -1 <;>
          simp [beginLensOk, pendingBytes, hd]
  | flush m =>
      show beginLensOk (D4DLCD_FlushBuffer_Spi_Spark_8b s m).2 = true
      rw [show D4DLCD_FlushBuffer_Spi_Spark_8b s m = flushData s by
        simp [D4DLCD_FlushBuffer_Spi_Spark_8b]]
      by_cases h0 : s.active_buffer_offset = 0
      · rw [flushData_of_zero s h0]; simp [beginLensOk]
      · rw [flushData_of_pos s h0]
        by_cases hd : s.dma_buffer_idx = -1 <;>
          simp [beginLensOk, pendingBytes, hd]
  | isr =>
      by_cases hd : s.dma_buffer_idx = -1 <;> simp [drvStep, hd, beginLensOk]

theorem drvRun_lens (ops : List DrvOp) : ∀ s : DriverState,
    beginLensOk (drvRun s ops).2 = true := by
  induction ops with
  | nil => intro s; simp [drvRun, beginLensOk]
  | cons op rest ih =>
      intro s
      simp only [drvRun, beginLensOk_append, Bool.and_eq_true]
      exact ⟨step_lens s op, ih (drvStep s op).1⟩

/-- C5: for every sequence of operations (data-word writes, command-word
writes, flushes, DMA completions), the bytes handed to the asynchronous
transfers, in hand-off order, followed by the bytes still pending in the
active buffer, are exactly the low bytes of the written data words in write
order: no byte is lost, duplicated or reordered, and every hand-off passes a
length equal to the number of bytes handed over. -/
theorem buffer_handoff_fifo (ops : List DrvOp) :
    flushedBytes (drvRun drvInit ops).2 ++ pendingBytes (drvRun drvInit ops).1 =
      (dataWords ops).map (· % 256) ∧
    beginLensOk (drvRun drvInit ops).2 = true := by
  constructor
  · have h := drvRun_fifo ops drvInit
    simpa [pendingBytes, drvInit] using h
  · exact drvRun_lens ops drvInit

theorem natCast_ne_neg_one (a : Nat) : ¬((a : Int) = -1) := by
  omega

theorem step_chkBegins_flag (s : DriverState) (op : DrvOp) :
    chkBegins (busy s) (drvStep s op).2 = true ∧
    flagAfter (busy s) (drvStep s op).2 = busy (drvStep s op).1 := by
  cases op with
  | data w =>
      show chkBegins (busy s) (D4DLCDHW_SendDataWord_Spi_Spark_8b s w).2 = true ∧
        flagAfter (busy s) (D4DLCDHW_SendDataWord_Spi_Spark_8b s w).2 =
          busy (D4DLCDHW_SendDataWord_Spi_Spark_8b s w).1
      by_cases hfull : SCREEN_DATA_BUFFER_SIZE ≤ s.active_buffer_offset + 1
      · rw [sendData_of_full s w hfull,
          flushData_of_pos _ (Nat.succ_ne_zero s.active_buffer_offset)]
        by_cases hd : s.dma_buffer_idx = -1 <;>
          simp [busy, chkBegins, evFlag, flagAfter, hd, natCast_ne_neg_one]
      · rw [sendData_of_not_full s w (Nat.not_le.mp hfull)]
        by_cases hd : s.dma_buffer_idx = -1 <;>
          simp [busy, chkBegins, evFlag, flagAfter, hd]
  | cmd w =>
      show chkBegins (busy s) (D4DLCDHW_SendCmdWord_Spi_Spark_8b s w).2 = true ∧
        flagAfter (busy s) (D4DLCDHW_SendCmdWord_Spi_Spark_8b s w).2 =
          busy (D4DLCDHW_SendCmdWord_Spi_Spark_8b s w).1
      by_cases h0 : s.active_buffer_offset = 0
      · rw [sendCmd_of_zero s w h0]
        by_cases hd : s.dma_buffer_idx = -1 <;>
          simp [busy, chkBegins, evFlag, flagAfter, hd]
      · rw [sendCmd_of_pos s w h0]
        by_cases hd : s.dma_buffer_idx = -1 <;>
          simp [busy, chkBegins, evFlag, flagAfter, hd]
  | flush m =>
      show chkBegins (busy s) (D4DLCD_FlushBuffer_Spi_Spark_8b s m).2 = true ∧
        flagAfter (busy s) (D4DLCD_FlushBuffer_Spi_Spark_8b s m).2 =
          busy (D4DLCD_FlushBuffer_Spi_Spark_8b s m).1
      rw [show D4DLCD_FlushBuffer_Spi_Spark_8b s m = flushData s by
        simp [D4DLCD_FlushBuffer_Spi_Spark_8b]]
      by_cases h0 : s.active_buffer_offset = 0
      · rw [flushData_of_zero s h0]
        simp [busy, chkBegins, flagAfter]
      · rw [flushData_of_pos s h0]
        by_cases hd : s.dma_buffer_idx = -1 <;>
          simp [busy, chkBegins, evFlag, flagAfter, hd, natCast_ne_neg_one]
  | isr =>
      by_cases hd : s.dma_buffer_idx = -1 <;>
        simp [drvStep, transferComplete, hd, busy, chkBegins, evFlag, flagAfter]

theorem drvRun_chkBegins (ops : List DrvOp) : ∀ s : DriverState,
    chkBegins (busy s) (drvRun s ops).2 = true ∧
    flagAfter (busy s) (drvRun s ops).2 = busy (drvRun s ops).1 := by
  induction ops with
  | nil => intro s; simp [drvRun, chkBegins, flagAfter]
  | cons op rest ih =>
      intro s
      have h1 := step_chkBegins_flag s op
      have h2 := ih (drvStep s op).1
      simp only [drvRun, chkBegins_append, flagAfter_append, Bool.and_eq_true]
      rw [h1.2]
      exact ⟨⟨h1.1, h2.1⟩, h2.2⟩

theorem step_chkPre (s : DriverState) (op : DrvOp) (p : Option Ev × Option Ev) :
    chkPre p (drvStep s op).2 = true := by
  cases op with
  | data w =>
      show chkPre p (D4DLCDHW_SendDataWord_Spi_Spark_8b s w).2 = true
      by_cases hfull : SCREEN_DATA_BUFFER_SIZE ≤ s.active_buffer_offset + 1
      · rw [sendData_of_full s w hfull,
          flushData_of_pos _ (Nat.succ_ne_zero s.active_buffer_offset)]
        by_cases hd : s.dma_buffer_idx = -1 <;> simp [chkPre, winStep, hd]
      · rw [sendData_of_not_full s w (Nat.not_le.mp hfull)]
        simp [chkPre, winStep]
  | cmd w =>
      show chkPre p (D4DLCDHW_SendCmdWord_Spi_Spark_8b s w).2 = true
      by_cases h0 : s.active_buffer_offset = 0
      · rw [sendCmd_of_zero s w h0]
        by_cases hd : s.dma_buffer_idx = -1 <;> simp [chkPre, winStep, hd]
      · rw [sendCmd_of_pos s w h0]
        by_cases hd : s.dma_buffer_idx = -1 <;> simp [chkPre, winStep, hd]
  | flush m =>
      show chkPre p (D4DLCD_FlushBuffer_Spi_Spark_8b s m).2 = true
      rw [show D4DLCD_FlushBuffer_Spi_Spark_8b s m = flushData s by
        simp [D4DLCD_FlushBuffer_Spi_Spark_8b]]
      by_cases h0 : s.active_buffer_offset = 0
      · rw [flushData_of_zero s h0]; simp [chkPre]
      · rw [flushData_of_pos s h0]
        by_cases hd : s.dma_buffer_idx = -1 <;> simp [chkPre, winStep, hd]
  | isr =>
      by_cases hd : s.dma_buffer_idx = -1 <;> simp [drvStep, hd, chkPre, winStep]

theorem drvRun_chkPre (ops : List DrvOp) : ∀ (s : DriverState) (p : Option Ev × Option Ev),
    chkPre p (drvRun s ops).2 = true := by
  induction ops with
  | nil => intro s p; simp [drvRun, chkPre]
  | cons op rest ih =>
      intro s p
      simp only [drvRun, chkPre_append, Bool.and_eq_true]
      exact ⟨step_chkPre s op p, ih (drvStep s op).1 _⟩

/-- C6: over every operation sequence from the initial state, including
arbitrary placements of the asynchronous DMA completion interrupt, the
emitted hardware trace never starts a new asynchronous transfer while a
previously started one has not completed (replaying the in-flight status
over the trace, every `begin` happens with the status clear — so at most one
buffer is ever owned by a transfer), and every `begin` is immediately
preceded by observing the transfer status idle (`waitIdle`) followed only by
the chip-select assert. -/
theorem transfers_strictly_serialized (ops : List DrvOp) :
    chkBegins false (drvRun drvInit ops).2 = true ∧
    chkPre (none, none) (drvRun drvInit ops).2 = true := by
  constructor
  · have h := (drvRun_chkBegins ops drvInit).1
    simpa [busy, drvInit] using h
  · exact drvRun_chkPre ops drvInit (none, none)

/-- The bookkeeping invariant of the double buffer: the active index names
one of the two buffers and the fill offset is strictly below the 320-byte
capacity. -/
def BufferInv (s : DriverState) : Prop :=
  s.active_buffer_idx < 2 ∧ s.active_buffer_offset < SCREEN_DATA_BUFFER_SIZE

theorem step_storesOk (s : DriverState) (op : DrvOp) (h : BufferInv s) :
    BufferInv (drvStep s op).1 ∧ storesOk (drvStep s op).2 = true := by
  obtain ⟨hidx, hoff⟩ := h
  simp only [SCREEN_DATA_BUFFER_SIZE] at hoff
  cases op with
  | data w =>
      show BufferInv (D4DLCDHW_SendDataWord_Spi_Spark_8b s w).1 ∧
        storesOk (D4DLCDHW_SendDataWord_Spi_Spark_8b s w).2 = true
      by_cases hfull : SCREEN_DATA_BUFFER_SIZE ≤ s.active_buffer_offset + 1
      · rw [sendData_of_full s w hfull,
          flushData_of_pos _ (Nat.succ_ne_zero s.active_buffer_offset)]
        by_cases hd : s.dma_buffer_idx = -1 <;>
          simp [BufferInv, storesOk, hd, SCREEN_DATA_BUFFER_SIZE] <;> omega
      · rw [sendData_of_not_full s w (Nat.not_le.mp hfull)]
        simp [BufferInv, storesOk, SCREEN_DATA_BUFFER_SIZE]
        simp only [SCREEN_DATA_BUFFER_SIZE] at hfull
        omega
  | cmd w =>
      show BufferInv (D4DLCDHW_SendCmdWord_Spi_Spark_8b s w).1 ∧
        storesOk (D4DLCDHW_SendCmdWord_Spi_Spark_8b s w).2 = true
      by_cases h0 : s.active_buffer_offset = 0
      · rw [sendCmd_of_zero s w h0]
        by_cases hd : s.dma_buffer_idx = -1 <;>
          simp [BufferInv, storesOk, hd, SCREEN_DATA_BUFFER_SIZE] <;> omega
      · rw [sendCmd_of_pos s w h0]
        by_cases hd : s.dma_buffer_idx = -1 <;>
          simp [BufferInv, storesOk, hd, SCREEN_DATA_BUFFER_SIZE] <;> omega
  | flush m =>
      show BufferInv (D4DLCD_FlushBuffer_Spi_Spark_8b s m).1 ∧
        storesOk (D4DLCD_FlushBuffer_Spi_Spark_8b s m).2 = true
      rw [show D4DLCD_FlushBuffer_Spi_Spark_8b s m = flushData s by
        simp [D4DLCD_FlushBuffer_Spi_Spark_8b]]
      by_cases h0 : s.active_buffer_offset = 0
      · rw [flushData_of_zero s h0]
        simp [BufferInv, storesOk, SCREEN_DATA_BUFFER_SIZE]
        omega
      · rw [flushData_of_pos s h0]
        by_cases hd : s.dma_buffer_idx = -1 <;>
          simp [BufferInv, storesOk, hd, SCREEN_DATA_BUFFER_SIZE] <;> omega
  | isr =>
      by_cases hd : s.dma_buffer_idx = -1 <;>
        simp [drvStep, transferComplete, hd, BufferInv, storesOk,
          SCREEN_DATA_BUFFER_SIZE] <;> omega

theorem drvRun_storesOk (ops : List DrvOp) : ∀ s : DriverState, BufferInv s →
    BufferInv (drvRun s ops).1 ∧ storesOk (drvRun s ops).2 = true := by
  induction ops with
  | nil => intro s h; simpa [drvRun, storesOk] using h
  | cons op rest ih =>
      intro s h
      have h1 := step_storesOk s op h
      have h2 := ih (drvStep s op).1 h1.1
      simp only [drvRun, storesOk_append, Bool.and_eq_true]
      exact ⟨h2.1, h1.2, h2.2⟩

/-- C8: over every operation sequence from the initial state, every byte
stored by the buffered data-word write lands in one of the two buffers at an
offset strictly below the 320-byte capacity (so the unchecked
`tx_buffer[active_buffer_idx][active_buffer_offset++]` store never writes
out of bounds), and the fill offset of the state between operations stays
strictly below the capacity. -/
theorem stores_within_bounds (ops : List DrvOp) :
    storesOk (drvRun drvInit ops).2 = true ∧
    (drvRun drvInit ops).1.active_buffer_offset < SCREEN_DATA_BUFFER_SIZE ∧
    (drvRun drvInit ops).1.active_buffer_idx < 2 := by
  have h0 : BufferInv drvInit := by
    constructor <;> simp [drvInit, SCREEN_DATA_BUFFER_SIZE]
  have h := drvRun_storesOk ops drvInit h0
  exact ⟨h.2, h.1.2, h.1.1⟩

/-- C7: for every driver state (hence after every prior sequence of buffered
data-word writes), a command-word write first flushes the pending buffered
bytes (the transfers begun during the call hand over exactly the pending
bytes, and nothing when the buffer was empty), then observes the transfer
status idle, with only the command-line and chip-select asserts between that
observation and its synchronous single-word transfer, which is followed
immediately by the chip-select and command-line deasserts; replaying the
in-flight status up to that idle observation yields idle, and the call
leaves the driver with no transfer in flight, an empty active buffer and
both control lines deasserted. -/
theorem writeCommand_flushes_waits_then_syncs (s : DriverState) (cmd : Nat) :
    (∃ u, (D4DLCDHW_SendCmdWord_Spi_Spark_8b s cmd).2 =
        u ++ [Ev.waitIdle, Ev.dcAssert, Ev.csAssert, Ev.sync (cmd % 256),
          Ev.csDeassert, Ev.dcDeassert] ∧
      flagAfter (busy s) (u ++ [Ev.waitIdle]) = false) ∧
    beginDatas (D4DLCDHW_SendCmdWord_Spi_Spark_8b s cmd).2 =
      (if s.active_buffer_offset = 0 then [] else [pendingBytes s]) ∧
    (D4DLCDHW_SendCmdWord_Spi_Spark_8b s cmd).1.dma_buffer_idx = -1 ∧
    (D4DLCDHW_SendCmdWord_Spi_Spark_8b s cmd).1.active_buffer_offset = 0 ∧
    (D4DLCDHW_SendCmdWord_Spi_Spark_8b s cmd).1.cs_asserted = false ∧
    (D4DLCDHW_SendCmdWord_Spi_Spark_8b s cmd).1.dc_asserted = false := by
  by_cases h0 : s.active_buffer_offset = 0
  · rw [sendCmd_of_zero s cmd h0]
    refine ⟨⟨if s.dma_buffer_idx = -1 then [] else [Ev.complete], ?_, ?_⟩, ?_, ?_, ?_, ?_, ?_⟩
    · by_cases hd : s.dma_buffer_idx = -1 <;> simp [hd]
    · by_cases hd : s.dma_buffer_idx = -1 <;>
        simp [hd, busy, flagAfter, evFlag]
    · by_cases hd : s.dma_buffer_idx = -1 <;> simp [hd, beginDatas, h0]
    · simp
    · simp [h0]
    · simp
    · simp
  · rw [sendCmd_of_pos s cmd h0]
    refine ⟨⟨(if s.dma_buffer_idx = -1 then [Ev.waitIdle] else [Ev.complete, Ev.waitIdle]) ++
        [Ev.csAssert, Ev.begin s.active_buffer_idx s.active_buffer_offset (pendingBytes s),
          Ev.complete], ?_, ?_⟩, ?_, ?_, ?_, ?_, ?_⟩
    · by_cases hd : s.dma_buffer_idx = -1 <;> simp [hd]
    · by_cases hd : s.dma_buffer_idx = -1 <;>
        simp [hd, busy, flagAfter, evFlag]
    · by_cases hd : s.dma_buffer_idx = -1 <;> simp [hd, beginDatas, h0]
    · simp
    · simp
    · simp
    · simp

/-- C9: the buffered data-word write appends exactly one byte per call, the
low byte `value % 256` of the 16-bit word (stored at the active buffer's
current fill offset), and the call's entire behaviour depends only on that
low byte: writing `value` is indistinguishable from writing `value % 256`,
so the upper 8 bits are discarded. -/
theorem data_word_truncated_to_byte (s : DriverState) (value : Nat) :
    storeEvents (D4DLCDHW_SendDataWord_Spi_Spark_8b s value).2 =
      [Ev.store s.active_buffer_idx s.active_buffer_offset (value % 256)] ∧
    D4DLCDHW_SendDataWord_Spi_Spark_8b s value =
      D4DLCDHW_SendDataWord_Spi_Spark_8b s (value % 256) := by
  constructor
  · by_cases hfull : SCREEN_DATA_BUFFER_SIZE ≤ s.active_buffer_offset + 1
    · rw [sendData_of_full s value hfull,
        flushData_of_pos _ (Nat.succ_ne_zero s.active_buffer_offset)]
      by_cases hd : s.dma_buffer_idx = -1 <;> simp [storeEvents, hd]
    · rw [sendData_of_not_full s value (Nat.not_le.mp hfull)]
      simp [storeEvents]
  · have h : value % 256 % 256 = value % 256 := by simp
    simp only [D4DLCDHW_SendDataWord_Spi_Spark_8b, h]

/-- C10: the flush-mode argument of the flush-buffer entry point has no
influence whatsoever: because of the short-circuited `true ||` in its
condition, the call flushes pending data for every mode value, so any two
mode arguments produce the same state and the same hardware trace. -/
theorem flush_mode_irrelevant (s : DriverState) (m1 m2 : D4DLCD_FLUSH_MODE) :
    D4DLCD_FlushBuffer_Spi_Spark_8b s m1 = D4DLCD_FlushBuffer_Spi_Spark_8b s m2 := by
  simp [D4DLCD_FlushBuffer_Spi_Spark_8b]
